import Mathlib

/-
  Verification of the message-identification and injection-reconciliation
  engine of the OpenAI-Bookmark browser extension.

  The embedding below translates the TypeScript sources:
  * ClaudePlatform.generateStableMessageId / simpleHash
    (src/platforms/claude.ts, content-only fingerprint variant),
  * BookmarkStorage.validateBookmark / getAll / getByConversation / save
    (src/utils/storage.ts),
  * injectBookmarkButtons (generic src/content/content.ts variant and the
    per-site src/content/claude-content.ts variant),
  * the bootstrap retry loop of initializeExtension,
  * the shared content-script state of src/content/shared/base-content.ts
    (bookmarkedMessageIds, bookmarksMap, getBookmark,
    loadBookmarksForConversation, handleBookmarkClick) together with
    InputSanitizer.sanitizeText.

  JavaScript strings are modelled as Lean String values; charCodeAt is
  modelled by Char.toNat (they agree on all characters of the basic
  multilingual plane, which covers every concrete input used here).
-/

set_option maxRecDepth 40000

namespace OpenAIBookmark

/-! ## JavaScript numeric and string primitives -/

/-- Coercion of an integer to a signed 32-bit integer, the effect of the
JavaScript bitwise operators used in simpleHash (`<<` and `& hash`). -/
def toInt32 (n : Int) : Int :=
  let r := n % 4294967296
  if r < 2147483648 then r else r - 4294967296

/-- One iteration of the rolling-hash loop of simpleHash:
`hash = ((hash << 5) - hash) + char; hash = hash & hash`. -/
def hashStep (h : Int) (c : Char) : Int :=
  toInt32 (toInt32 (h * 32) - h + c.toNat)

/-- Digit character used by JavaScript Number.toString(36): 0-9 then a-z. -/
def digitChar36 (n : Nat) : Char :=
  if n < 10 then Char.ofNat (48 + n) else Char.ofNat (87 + n)

/-- Fuelled base-36 digit accumulator (fuel `n + 1` always suffices). -/
def toBase36Aux : Nat → Nat → List Char → List Char
  | 0, _, acc => acc
  | fuel + 1, n, acc =>
    if n = 0 then acc else toBase36Aux fuel (n / 36) (digitChar36 (n % 36) :: acc)

/-- JavaScript Number.toString(36) on a natural number. -/
def toBase36 (n : Nat) : String :=
  if n = 0 then "0" else String.mk (toBase36Aux (n + 1) n [])

/-- JavaScript s.substring(0, n): the first n UTF-16 units of s. -/
def substringTo (s : String) (n : Nat) : String :=
  String.mk (s.toList.take n)

/-- Membership test of the character class [a-zA-Z0-9] used by the
fingerprint's replace(/[^a-zA-Z0-9]/g, ''). -/
def isAsciiAlphanum (c : Char) : Bool :=
  (48 ≤ c.toNat && c.toNat ≤ 57) ||
  (65 ≤ c.toNat && c.toNat ≤ 90) ||
  (97 ≤ c.toNat && c.toNat ≤ 122)

/-- ASCII lower-casing, the effect of toLowerCase() on the alphanumeric
characters that survive the replace above. -/
def asciiLower (c : Char) : Char :=
  if 65 ≤ c.toNat && c.toNat ≤ 90 then Char.ofNat (c.toNat + 32) else c

/-! ## FingerprintGenerator (ClaudePlatform, content-based variant) -/

/-- simpleHash of src/platforms/claude.ts: 32-bit rolling hash of the
string, rendered as Math.abs(hash).toString(36). -/
def simpleHash (str : String) : String :=
  toBase36 (str.toList.foldl hashStep 0).natAbs

/-- generateStableMessageId of src/platforms/claude.ts (content-only
variant): hash of the first 300 characters, plus a lower-cased
alphanumeric-only prefix drawn from the first 20 characters, formatted
role_prefix_hash. -/
def generateStableMessageId (role text : String) : String :=
  let contentSample := substringTo text 300
  let contentHash := simpleHash contentSample
  let pfx := String.mk (((substringTo text 20).toList.filter isAsciiAlphanum).map asciiLower)
  role ++ "_" ++ pfx ++ "_" ++ contentHash

/-! ## Claims C1 and C6: fingerprint determinism, truncation, scenario -/

/-- C1: the fingerprint is deterministic and truncating: identical inputs
give identical output, and two texts agreeing on their first 300
characters give identical output for every role. -/
theorem fingerprint_deterministic_truncating (role t1 t2 : String)
    (h : substringTo t1 300 = substringTo t2 300) :
    generateStableMessageId role t1 = generateStableMessageId role t1 ∧
    generateStableMessageId role t1 = generateStableMessageId role t2 := by
  have h300 : t1.data.take 300 = t2.data.take 300 := by
    have := congrArg String.data h
    simpa [substringTo, String.toList] using this
  have h20 : t1.data.take 20 = t2.data.take 20 := by
    have e1 : (t1.data.take 300).take 20 = t1.data.take 20 := by
      rw [List.take_take]; norm_num
    have e2 : (t2.data.take 300).take 20 = t2.data.take 20 := by
      rw [List.take_take]; norm_num
    rw [← e1, ← e2, h300]
  refine ⟨rfl, ?_⟩
  simp only [generateStableMessageId, substringTo, String.toList]
  rw [h300, h20]

/-- Witness for C1 at a concrete input: two 301-character texts that agree
on their first 300 characters but differ at position 300 receive the same
fingerprint. -/
theorem fingerprint_deterministic_truncating_witness :
    substringTo (String.mk (List.replicate 301 'a')) 300 =
      substringTo (String.mk (List.replicate 300 'a' ++ ['b'])) 300 ∧
    generateStableMessageId "user" (String.mk (List.replicate 301 'a')) =
      generateStableMessageId "user" (String.mk (List.replicate 300 'a' ++ ['b'])) :=
  ⟨by decide,
   (fingerprint_deterministic_truncating "user"
      (String.mk (List.replicate 301 'a'))
      (String.mk (List.replicate 300 'a' ++ ['b'])) (by decide)).2⟩

/-- C6 counterexample: on the scenario text with role user the fingerprint
is not of the form user_helloworldhowareyou_hash; the alphanumeric prefix
drawn from the first 20 characters is "helloworldhoware". -/
theorem fingerprint_scenario_counterexample :
    generateStableMessageId "user" "Hello world, how are you today, friend of mine?" ≠
      "user_helloworldhowareyou_" ++
        simpleHash (substringTo "Hello world, how are you today, friend of mine?" 300) := by
  decide

/-- C6 amended: on the scenario text with role user the fingerprint is
exactly user_helloworldhoware_h where h is the base-36 rendering of the
32-bit rolling hash of the first 300 characters, concretely "orjwhx". -/
theorem fingerprint_scenario :
    generateStableMessageId "user" "Hello world, how are you today, friend of mine?" =
      "user_helloworldhoware_" ++
        simpleHash (substringTo "Hello world, how are you today, friend of mine?" 300) ∧
    simpleHash (substringTo "Hello world, how are you today, friend of mine?" 300) =
      "orjwhx" := by
  constructor
  · rfl
  · decide

/-! ## Store (BookmarkStorage of src/utils/storage.ts) -/

/-- Persisted bookmark record (src/types/bookmark.ts). -/
structure Bookmark where
  id : String
  platform : String
  conversationId : String
  messageId : String
  messageText : String
  note : String
  tags : List String
  timestamp : Int
  url : String
deriving DecidableEq

/-- Allowed platforms checked by validateBookmark. -/
def allowedPlatforms : List String := ["claude", "chatgpt", "gemini", "copilot"]

/-- One year in milliseconds, 365 * 24 * 60 * 60 * 1000. -/
def oneYearMs : Int := 31536000000

/-- validateBookmark of BookmarkStorage: required fields present, length
bounds, allowed platform, timestamp not in the future and not more than a
year before now (now plays the role of Date.now()). The JavaScript typeof
checks always pass in this typed embedding. -/
def validateBookmark (now : Int) (b : Bookmark) : Bool :=
  if b.id = "" ∨ b.platform = "" ∨ b.conversationId = "" ∨ b.messageId = "" then
    false
  else if 100 < b.id.length ∨ 500 < b.note.length ∨
      1000 < b.messageText.length ∨ 2000 < b.url.length then
    false
  else if b.platform ∉ allowedPlatforms then
    false
  else if now < b.timestamp ∨ b.timestamp < now - oneYearMs then
    false
  else
    true

/-- BookmarkStorage.getAll: the raw stored list with every record failing
validation filtered out. -/
def getAll (now : Int) (raw : List Bookmark) : List Bookmark :=
  raw.filter (validateBookmark now)

/-- BookmarkStorage.getByConversation. -/
def getByConversation (now : Int) (conversationId : String) (raw : List Bookmark) :
    List Bookmark :=
  (getAll now raw).filter (fun x => x.conversationId == conversationId)

/-- Outcome of BookmarkStorage.save: the error thrown, if any, and the raw
stored list after the call. -/
structure SaveResult where
  thrown : Option String
  store : List Bookmark
deriving DecidableEq

/-- The duplicate test of BookmarkStorage.save on a stored record x against
the incoming record b. -/
def pairEq (x b : Bookmark) : Bool :=
  x.conversationId == b.conversationId && x.messageId == b.messageId

/-- BookmarkStorage.save: throw on validation failure; skip (leaving the
raw store untouched) when a record with the same
(conversationId, messageId) pair is already loaded; otherwise write the
loaded list extended with the new record. -/
def save (now : Int) (b : Bookmark) (raw : List Bookmark) : SaveResult :=
  if !(validateBookmark now b) then
    { thrown := some "Invalid bookmark data - cannot save", store := raw }
  else if (getAll now raw).any (fun x => pairEq x b) then
    { thrown := none, store := raw }
  else
    { thrown := none, store := getAll now raw ++ [b] }

/-- Concrete sample records used in witnesses. -/
def bkA : Bookmark where
  id := "b1"
  platform := "claude"
  conversationId := "c1"
  messageId := "m1"
  messageText := "t"
  note := ""
  tags := []
  timestamp := 500
  url := "u"

/-- Second concrete record with the same (conversationId, messageId) pair
as bkA. -/
def bkB : Bookmark where
  id := "b2"
  platform := "claude"
  conversationId := "c1"
  messageId := "m1"
  messageText := "t2"
  note := "x"
  tags := []
  timestamp := 600
  url := "u"

/-- Concrete record whose timestamp lies more than one year in the past
relative to now = 1000. -/
def bkOld : Bookmark where
  id := "b0"
  platform := "claude"
  conversationId := "c1"
  messageId := "m0"
  messageText := "t"
  note := ""
  tags := []
  timestamp := -40000000000
  url := "u"

/-- Concrete record with a 600-character note. -/
def bkNote600 : Bookmark where
  id := "b1"
  platform := "claude"
  conversationId := "c1"
  messageId := "m1"
  messageText := "t"
  note := String.mk (List.replicate 600 'a')
  tags := []
  timestamp := 0
  url := "u"

/-- Characterization of a successful validation as a conjunction of the
individual checks. -/
theorem validateBookmark_eq_true (now : Int) (b : Bookmark) :
    validateBookmark now b = true ↔
      (b.id ≠ "" ∧ b.platform ≠ "" ∧ b.conversationId ≠ "" ∧ b.messageId ≠ "" ∧
       b.id.length ≤ 100 ∧ b.note.length ≤ 500 ∧ b.messageText.length ≤ 1000 ∧
       b.url.length ≤ 2000 ∧ b.platform ∈ allowedPlatforms ∧
       b.timestamp ≤ now ∧ now - oneYearMs ≤ b.timestamp) := by
  constructor
  · intro hv
    by_cases h1 : b.id = "" ∨ b.platform = "" ∨ b.conversationId = "" ∨ b.messageId = ""
    · simp [validateBookmark, h1] at hv
    by_cases h2 : 100 < b.id.length ∨ 500 < b.note.length ∨
        1000 < b.messageText.length ∨ 2000 < b.url.length
    · simp [validateBookmark, h1, h2] at hv
    by_cases h3 : b.platform ∉ allowedPlatforms
    · simp [validateBookmark, h1, h2, h3] at hv
    by_cases h4 : now < b.timestamp ∨ b.timestamp < now - oneYearMs
    · simp [validateBookmark, h1, h2, h3, h4] at hv
    push_neg at h1 h2 h4
    exact ⟨h1.1, h1.2.1, h1.2.2.1, h1.2.2.2, h2.1, h2.2.1, h2.2.2.1, h2.2.2.2,
      not_not.mp h3, h4.1, h4.2⟩
  · rintro ⟨hid, hpl, hc, hm, h100, h500, h1000, h2000, hplat, hts1, hts2⟩
    have h1 : ¬(b.id = "" ∨ b.platform = "" ∨ b.conversationId = "" ∨ b.messageId = "") := by
      tauto
    have h2 : ¬(100 < b.id.length ∨ 500 < b.note.length ∨
        1000 < b.messageText.length ∨ 2000 < b.url.length) := by
      push_neg
      exact ⟨h100, h500, h1000, h2000⟩
    have h3 : ¬(b.platform ∉ allowedPlatforms) := not_not_intro hplat
    have h4 : ¬(now < b.timestamp ∨ b.timestamp < now - oneYearMs) := by
      push_neg
      exact ⟨hts1, hts2⟩
    simp [validateBookmark, h1, h2, h3, h4]

/-! ## Claims C3, C4, C10: duplicate suppression, atomic rejection,
load-time validation -/

/-- C3: the Store keeps at most one record per (conversationId, messageId)
pair: saving a valid bookmark whose pair is already loaded leaves the raw
store unchanged, and saving two valid bookmarks with the same fresh pair
leaves exactly one record with that pair. -/
theorem save_duplicate_suppression (now : Int) (raw : List Bookmark) (b b2 : Bookmark)
    (hinv : raw.Pairwise fun x y => pairEq x y = false)
    (hv : validateBookmark now b = true) :
    ((getAll now raw).any (fun x => pairEq x b) = true →
      save now b raw = { thrown := none, store := raw }) ∧
    (validateBookmark now b2 = true → pairEq b2 b = true →
      (getAll now raw).any (fun x => pairEq x b) = false →
      (save now b2 (save now b raw).store).store = (save now b raw).store ∧
      ((save now b raw).store.countP fun x => pairEq x b) = 1) := by
  constructor
  · intro hdup
    simp [save, hv, hdup]
  · intro hv2 hpair hfresh
    have hstore : (save now b raw).store = getAll now raw ++ [b] := by
      simp [save, hv, hfresh]
    have hgetAll : getAll now (getAll now raw ++ [b]) = getAll now raw ++ [b] := by
      simp [getAll, List.filter_append, List.filter_filter, hv]
    have hsymm : pairEq b b2 = true := by
      simp only [pairEq, Bool.and_eq_true, beq_iff_eq] at hpair ⊢
      exact ⟨hpair.1.symm, hpair.2.symm⟩
    have hany : (getAll now (getAll now raw ++ [b])).any (fun x => pairEq x b2) = true := by
      refine List.any_eq_true.mpr ⟨b, ?_, hsymm⟩
      rw [hgetAll]
      exact List.mem_append_right _ (by simp)
    constructor
    · rw [hstore]
      simp [save, hv2, hany]
    · rw [hstore, List.countP_append]
      have h0 : ((getAll now raw).countP fun x => pairEq x b) = 0 := by
        refine List.countP_eq_zero.mpr ?_
        intro x hx
        have hall := List.any_eq_false.mp hfresh x hx
        simpa using hall
      have h1 : (List.countP (fun x => pairEq x b) [b]) = 1 := by
        simp [List.countP_cons, pairEq]
      omega

/-- Witness for C3: concrete duplicate save on a one-record store. -/
theorem save_duplicate_suppression_witness :
    (save 1000 bkB (save 1000 bkA []).store).store = (save 1000 bkA []).store ∧
    ((save 1000 bkA []).store.countP fun x => pairEq x bkA) = 1 :=
  (save_duplicate_suppression 1000 [] bkA bkB
    List.Pairwise.nil (by decide)).2 (by decide) (by decide) (by decide)

/-- C4: a bookmark failing validation is rejected with an error and the
raw store is unchanged; in particular a note longer than 500 characters,
an over-length id, messageText or url, an unknown platform, or a
timestamp in the future or more than a year old all fail validation. -/
theorem save_validation_atomic (now : Int) (b : Bookmark) (raw : List Bookmark) :
    (validateBookmark now b = false →
      save now b raw = { thrown := some "Invalid bookmark data - cannot save",
                         store := raw }) ∧
    (500 < b.note.length ∨ 100 < b.id.length ∨ 1000 < b.messageText.length ∨
      2000 < b.url.length ∨ b.platform ∉ allowedPlatforms ∨
      now < b.timestamp ∨ b.timestamp < now - oneYearMs →
      validateBookmark now b = false) := by
  constructor
  · intro h
    simp [save, h]
  · intro h
    rcases Bool.eq_false_or_eq_true (validateBookmark now b) with ht | hf
    · exfalso
      rcases (validateBookmark_eq_true now b).mp ht with
        ⟨-, -, -, -, h100, h500, h1000, h2000, hplat, hts1, hts2⟩
      rcases h with h | h | h | h | h | h | h
      · omega
      · omega
      · omega
      · omega
      · exact h hplat
      · omega
      · omega
    · exact hf

/-- Witness for C4: a save whose note is 600 characters long is rejected
and the store stays empty. -/
theorem save_validation_atomic_witness :
    save 0 bkNote600 [] =
      { thrown := some "Invalid bookmark data - cannot save", store := [] } ∧
    500 < bkNote600.note.length :=
  have h6 : (500 : Nat) < bkNote600.note.length := by
    simp [bkNote600, String.length]
  ⟨(save_validation_atomic 0 bkNote600 []).1
    ((save_validation_atomic 0 bkNote600 []).2 (Or.inl h6)), h6⟩

/-- C10: every bookmark returned by getAll or getByConversation passes
validation, and a record whose timestamp lies more than a year before now
is dropped from every load. -/
theorem getAll_only_valid (now : Int) (cid : String) (raw : List Bookmark)
    (b : Bookmark) :
    (b ∈ getAll now raw → validateBookmark now b = true) ∧
    (b ∈ getByConversation now cid raw → validateBookmark now b = true) ∧
    (b.timestamp < now - oneYearMs → b ∉ getAll now raw) := by
  refine ⟨?_, ?_, ?_⟩
  · intro h
    exact List.of_mem_filter h
  · intro h
    exact List.of_mem_filter (List.mem_of_mem_filter h)
  · intro hts hmem
    have hv := List.of_mem_filter hmem
    have hc := ((validateBookmark_eq_true now b).mp hv).2.2.2.2.2.2.2.2.2.2
    omega

/-- Witness for C10: a valid stored record survives the load, and a
record saved more than a year ago is dropped. -/
theorem getAll_only_valid_witness :
    validateBookmark 1000 bkA = true ∧
    bkOld ∉ getAll 1000 [bkA, bkOld] :=
  ⟨(getAll_only_valid 1000 "c1" [bkA] bkA).1 (by decide),
   (getAll_only_valid 1000 "c1" [bkA, bkOld] bkOld).2.2 (by decide)⟩

/-! ## InjectionCoordinator (injectBookmarkButtons)

Two variants exist in the sources: the generic src/content/content.ts one
(processed-set check first, then a DOM marker check, platform insertion
assumed non-throwing) and the per-site src/content/claude-content.ts one
(user-role filter, DOM marker check via bookmarkButtonExists, per-message
try/catch around the platform insertion, no processed-set skip).

A scan-time turn is modelled with the DOM abstracted to the two facts the
functions read and write: whether a marker is already present for the turn
(hasButton) and what the platform adapter insertion does for it
(outcome). -/

/-- Result of platform.injectBookmarkButton for one turn: a marker was
inserted; the adapter found no insertion point and returned after a
console warning; or the insertion threw. -/
inductive InjectOutcome where
  | ok
  | silentFail
  | err
deriving DecidableEq

/-- A conversation turn as seen by one reconciliation scan. -/
structure Msg where
  id : String
  role : String
  text : String
  hasButton : Bool
  outcome : InjectOutcome
deriving DecidableEq

/-- injectBookmarkButtons of src/content/content.ts: returns the final
processedMessageIds, the turn list with newly inserted markers recorded,
and the injected count. A message already processed is skipped; otherwise
a message with no marker gets an insertion attempt and is counted and
marked processed regardless of whether the adapter actually inserted. -/
def contentInject : List String → List Msg → List String × List Msg × Nat
  | proc, [] => (proc, [], 0)
  | proc, m :: ms =>
    if m.id ∈ proc then
      let r := contentInject proc ms
      (r.1, m :: r.2.1, r.2.2)
    else if m.hasButton = false then
      let r := contentInject (m.id :: proc) ms
      (r.1, (if m.outcome = InjectOutcome.ok then { m with hasButton := true } else m) :: r.2.1,
        r.2.2 + 1)
    else
      let r := contentInject (m.id :: proc) ms
      (r.1, m :: r.2.1, r.2.2)

/-- injectBookmarkButtons of src/content/claude-content.ts: non-user turns
are skipped entirely; a turn with an existing marker is only marked
processed; otherwise the platform insertion runs inside the per-message
try/catch, and on normal return (marker inserted or silently not) the id
is marked processed and counted, while a thrown insertion is caught
before the processed-set add and the count. -/
def claudeInject : List String → List Msg → List String × List Msg × Nat
  | proc, [] => (proc, [], 0)
  | proc, m :: ms =>
    if m.role = "user" then
      if m.hasButton then
        let p := if m.id ∈ proc then proc else m.id :: proc
        let r := claudeInject p ms
        (r.1, m :: r.2.1, r.2.2)
      else
        match m.outcome with
        | InjectOutcome.err =>
          let r := claudeInject proc ms
          (r.1, m :: r.2.1, r.2.2)
        | InjectOutcome.ok =>
          let r := claudeInject (m.id :: proc) ms
          (r.1, { m with hasButton := true } :: r.2.1, r.2.2 + 1)
        | InjectOutcome.silentFail =>
          let r := claudeInject (m.id :: proc) ms
          (r.1, m :: r.2.1, r.2.2 + 1)
    else
      let r := claudeInject proc ms
      (r.1, m :: r.2.1, r.2.2)

/-- Effect of one claude-content scan on a single turn's marker state. -/
def claudeMark (m : Msg) : Msg :=
  if m.role = "user" ∧ m.hasButton = false ∧ m.outcome = InjectOutcome.ok then
    { m with hasButton := true }
  else m

theorem contentInject_mono (ms : List Msg) :
    ∀ (proc : List String) (x : String), x ∈ proc → x ∈ (contentInject proc ms).1 := by
  induction ms with
  | nil =>
    intro proc x hx
    simpa [contentInject] using hx
  | cons m ms ih =>
    intro proc x hx
    by_cases h1 : m.id ∈ proc
    · simpa [contentInject, h1] using ih proc x hx
    · by_cases h2 : m.hasButton = false
      · simpa [contentInject, h1, h2] using ih (m.id :: proc) x (List.mem_cons_of_mem _ hx)
      · simpa [contentInject, h1, h2] using ih (m.id :: proc) x (List.mem_cons_of_mem _ hx)

theorem contentInject_ids (ms : List Msg) :
    ∀ (proc : List String) (m : Msg),
      m ∈ (contentInject proc ms).2.1 → m.id ∈ (contentInject proc ms).1 := by
  induction ms with
  | nil =>
    intro proc m hm
    simp [contentInject] at hm
  | cons a ms ih =>
    intro proc m hm
    by_cases h1 : a.id ∈ proc
    · simp only [contentInject] at hm ⊢
      rw [if_pos h1] at hm ⊢
      rcases List.mem_cons.mp hm with rfl | hm'
      · exact contentInject_mono ms proc m.id h1
      · exact ih proc m hm'
    · by_cases h2 : a.hasButton = false
      · simp only [contentInject] at hm ⊢
        rw [if_neg h1, if_pos h2] at hm ⊢
        rcases List.mem_cons.mp hm with rfl | hm'
        · have hid : (if a.outcome = InjectOutcome.ok then { a with hasButton := true } else a).id
              = a.id := by
            by_cases ho : a.outcome = InjectOutcome.ok <;> simp [ho]
          rw [hid]
          exact contentInject_mono ms (a.id :: proc) a.id (by simp)
        · exact ih (a.id :: proc) m hm'
      · simp only [contentInject] at hm ⊢
        rw [if_neg h1, if_neg h2] at hm ⊢
        rcases List.mem_cons.mp hm with rfl | hm'
        · exact contentInject_mono ms (m.id :: proc) m.id (by simp)
        · exact ih (a.id :: proc) m hm'

theorem contentInject_count_zero (ms : List Msg) :
    ∀ proc : List String, (∀ m ∈ ms, m.id ∈ proc) → (contentInject proc ms).2.2 = 0 := by
  induction ms with
  | nil =>
    intro proc _
    simp [contentInject]
  | cons a ms ih =>
    intro proc h
    have ha : a.id ∈ proc := h a (by simp)
    simp only [contentInject]
    rw [if_pos ha]
    exact ih proc (fun m hm => h m (List.mem_cons_of_mem _ hm))

theorem claudeInject_mono (ms : List Msg) :
    ∀ (proc : List String) (x : String), x ∈ proc → x ∈ (claudeInject proc ms).1 := by
  induction ms with
  | nil =>
    intro proc x hx
    simpa [claudeInject] using hx
  | cons a ms ih =>
    intro proc x hx
    by_cases hu : a.role = "user"
    · by_cases hb : a.hasButton = true
      · have hx' : x ∈ (if a.id ∈ proc then proc else a.id :: proc) := by
          by_cases hid : a.id ∈ proc <;> simp [hid, hx, List.mem_cons_of_mem]
        simpa [claudeInject, hu, hb] using ih _ x hx'
      · have hb' : a.hasButton = false := by simpa using hb
        cases ho : a.outcome with
        | err => simpa [claudeInject, hu, hb', ho] using ih proc x hx
        | ok =>
          simpa [claudeInject, hu, hb', ho] using
            ih (a.id :: proc) x (List.mem_cons_of_mem _ hx)
        | silentFail =>
          simpa [claudeInject, hu, hb', ho] using
            ih (a.id :: proc) x (List.mem_cons_of_mem _ hx)
    · simpa [claudeInject, hu] using ih proc x hx

theorem claudeInject_out (ms : List Msg) :
    ∀ proc : List String, (claudeInject proc ms).2.1 = ms.map claudeMark := by
  induction ms with
  | nil =>
    intro proc
    simp [claudeInject]
  | cons a ms ih =>
    intro proc
    by_cases hu : a.role = "user"
    · by_cases hb : a.hasButton = true
      · simp [claudeInject, claudeMark, hu, hb, ih]
      · have hb' : a.hasButton = false := by simpa using hb
        cases ho : a.outcome with
        | err => simp [claudeInject, claudeMark, hu, hb', ho, ih]
        | ok => simp [claudeInject, claudeMark, hu, hb', ho, ih]
        | silentFail => simp [claudeInject, claudeMark, hu, hb', ho, ih]
    · simp [claudeInject, claudeMark, hu, ih]

theorem claudeInject_count_zero (ms : List Msg) :
    ∀ proc : List String, (∀ m ∈ ms, m.role = "user" → m.hasButton = true) →
      (claudeInject proc ms).2.2 = 0 := by
  induction ms with
  | nil =>
    intro proc _
    simp [claudeInject]
  | cons a ms ih =>
    intro proc h
    have htail : ∀ m ∈ ms, m.role = "user" → m.hasButton = true :=
      fun m hm => h m (List.mem_cons_of_mem _ hm)
    by_cases hu : a.role = "user"
    · have hb : a.hasButton = true := h a (by simp) hu
      simp only [claudeInject]
      rw [if_pos hu, if_pos hb]
      exact ih _ htail
    · simp only [claudeInject]
      rw [if_neg hu]
      exact ih proc htail

theorem claudeInject_proc_sub (ms : List Msg) :
    ∀ (proc : List String) (x : String), x ∈ (claudeInject proc ms).1 →
      x ∈ proc ∨ x ∈ (ms.filter (fun m => m.role == "user")).map Msg.id := by
  induction ms with
  | nil =>
    intro proc x hx
    exact Or.inl (by simpa [claudeInject] using hx)
  | cons a ms ih =>
    intro proc x hx
    by_cases hu : a.role = "user"
    · have hfil : ((a :: ms).filter (fun m => m.role == "user")).map Msg.id =
          a.id :: (ms.filter (fun m => m.role == "user")).map Msg.id := by
        simp [List.filter_cons, hu]
      by_cases hb : a.hasButton = true
      · rw [claudeInject] at hx
        rw [if_pos hu, if_pos hb] at hx
        rcases ih _ x hx with h | h
        · by_cases hid : a.id ∈ proc
          · exact Or.inl (by simpa [hid] using h)
          · rcases List.mem_cons.mp (by simpa [hid] using h : x ∈ a.id :: proc) with rfl | hp
            · exact Or.inr (by rw [hfil]; simp)
            · exact Or.inl hp
        · exact Or.inr (by rw [hfil]; exact List.mem_cons_of_mem _ h)
      · have hb' : a.hasButton = false := by simpa using hb
        cases ho : a.outcome with
        | err =>
          rw [claudeInject] at hx
          rw [if_pos hu, hb'] at hx
          simp only [ho] at hx
          rcases ih _ x hx with h | h
          · exact Or.inl h
          · exact Or.inr (by rw [hfil]; exact List.mem_cons_of_mem _ h)
        | ok =>
          rw [claudeInject] at hx
          rw [if_pos hu, hb'] at hx
          simp only [ho] at hx
          rcases ih _ x hx with h | h
          · rcases List.mem_cons.mp h with rfl | hp
            · exact Or.inr (by rw [hfil]; simp)
            · exact Or.inl hp
          · exact Or.inr (by rw [hfil]; exact List.mem_cons_of_mem _ h)
        | silentFail =>
          rw [claudeInject] at hx
          rw [if_pos hu, hb'] at hx
          simp only [ho] at hx
          rcases ih _ x hx with h | h
          · rcases List.mem_cons.mp h with rfl | hp
            · exact Or.inr (by rw [hfil]; simp)
            · exact Or.inl hp
          · exact Or.inr (by rw [hfil]; exact List.mem_cons_of_mem _ h)
    · have hfil : ((a :: ms).filter (fun m => m.role == "user")).map Msg.id =
          (ms.filter (fun m => m.role == "user")).map Msg.id := by
        simp [List.filter_cons, hu]
      rw [claudeInject] at hx
      rw [if_neg hu] at hx
      rcases ih _ x hx with h | h
      · exact Or.inl h
      · exact Or.inr (by rw [hfil]; exact h)

/-- Concrete user turn whose insertion succeeds. -/
def msgOk : Msg :=
  { id := "m1", role := "user", text := "hi", hasButton := false, outcome := InjectOutcome.ok }

/-- Concrete user turn whose adapter insertion finds no insertion point
and returns without inserting. -/
def msgSilent : Msg :=
  { id := "m1", role := "user", text := "hi", hasButton := false,
    outcome := InjectOutcome.silentFail }

/-- Concrete user turn whose adapter insertion throws. -/
def msgErr : Msg :=
  { id := "m1", role := "user", text := "hi", hasButton := false, outcome := InjectOutcome.err }

/-- Concrete assistant turn with no marker. -/
def msgAsst : Msg :=
  { id := "a1", role := "assistant", text := "yo", hasButton := false,
    outcome := InjectOutcome.ok }

/-! ## Claims C2, C7, C8: idempotency, user-only policy, processed-set -/

/-- C2 counterexample: for the claude-content variant of
injectBookmarkButtons, a user turn whose insertion silently fails (the
adapter finds no insertion point) is counted again on a second scan of the
unchanged DOM, so the second call does not return zero. -/
theorem inject_idempotent_counterexample :
    (claudeInject (claudeInject [] [msgSilent]).1
      (claudeInject [] [msgSilent]).2.1).2.2 ≠ 0 := by
  decide

/-- C2 amended: the content.ts variant of injectBookmarkButtons is
idempotent unconditionally (running it again on its own output yields
count zero for every turn list), while the claude-content variant is
idempotent provided every user turn either already carries a marker or
has a succeeding insertion. -/
theorem inject_idempotent (proc q : List String) (ms : List Msg) :
    (contentInject (contentInject proc ms).1 (contentInject proc ms).2.1).2.2 = 0 ∧
    ((∀ m ∈ ms, m.role = "user" → (m.hasButton = true ∨ m.outcome = InjectOutcome.ok)) →
      (claudeInject (claudeInject q ms).1 (claudeInject q ms).2.1).2.2 = 0) := by
  constructor
  · exact contentInject_count_zero _ _ (fun m hm => contentInject_ids ms proc m hm)
  · intro h
    rw [claudeInject_out ms q]
    apply claudeInject_count_zero
    intro m hm hu
    rcases List.mem_map.mp hm with ⟨a, ha, rfl⟩
    have hrole : a.role = "user" := by
      by_cases h' : a.role = "user" ∧ a.hasButton = false ∧ a.outcome = InjectOutcome.ok
      · exact h'.1
      · simpa [claudeMark, h'] using hu
    rcases h a ha hrole with hb | ho
    · simp [claudeMark, hb]
    · by_cases hb : a.hasButton = true
      · simp [claudeMark, hb]
      · have hb' : a.hasButton = false := by simpa using hb
        simp [claudeMark, hrole, hb', ho]

/-- Witness for C2 at a concrete input: one user turn with a succeeding
insertion, both variants report zero on the second call. -/
theorem inject_idempotent_witness :
    (contentInject (contentInject [] [msgOk]).1 (contentInject [] [msgOk]).2.1).2.2 = 0 ∧
    (claudeInject (claudeInject [] [msgOk]).1 (claudeInject [] [msgOk]).2.1).2.2 = 0 :=
  ⟨(inject_idempotent [] [] [msgOk]).1,
   (inject_idempotent [] [] [msgOk]).2 (by
    intro m hm
    rw [List.mem_singleton] at hm
    subst hm
    intro h2
    exact Or.inr rfl)⟩

/-- C7 counterexample: the content.ts variant of injectBookmarkButtons has
no role filter: a fresh assistant turn gets a marker injection and its id
is added to the processed set. -/
theorem user_only_counterexample :
    (contentInject [] [msgAsst]).2.2 = 1 ∧ "a1" ∈ (contentInject [] [msgAsst]).1 := by
  decide

/-- C7 amended: the claude-content variant injects only for user turns:
its output is the input list transformed per-turn by claudeMark, which
leaves every non-user turn untouched, and the processed set gains only ids
of user-role turns. -/
theorem user_only_injection (proc : List String) (ms : List Msg) :
    (claudeInject proc ms).2.1 = ms.map claudeMark ∧
    (∀ m : Msg, m.role ≠ "user" → claudeMark m = m) ∧
    (∀ x : String, x ∈ (claudeInject proc ms).1 →
      x ∈ proc ∨ x ∈ (ms.filter (fun m => m.role == "user")).map Msg.id) := by
  refine ⟨claudeInject_out ms proc, ?_, claudeInject_proc_sub ms proc⟩
  intro m hm
  simp [claudeMark, hm]

/-- Witness for C7 at a concrete input: an assistant turn is left
untouched, and an id found in the final processed set traces back to the
initial set or a user turn. -/
theorem user_only_injection_witness :
    claudeMark msgAsst = msgAsst ∧
    ("p" ∈ ["p"] ∨ "p" ∈ ([msgAsst].filter (fun m => m.role == "user")).map Msg.id) :=
  ⟨(user_only_injection [] [msgAsst]).2.1 msgAsst (by decide),
   (user_only_injection ["p"] [msgAsst]).2.2 "p" (by decide)⟩

/-- C8 counterexample: in the claude-content variant a user turn whose
marker insertion throws is not added to processedMessageIds by the scan,
so it will be re-attempted on the next scan. -/
theorem failed_marked_processed_counterexample :
    "m1" ∉ (claudeInject [] [msgErr]).1 := by
  decide

/-- C8 amended: after one claude-content scan, every user turn that
already carried a marker or whose insertion did not throw has its id in
processedMessageIds; only a thrown insertion escapes the processed-set
add. -/
theorem processed_after_scan (proc : List String) (ms : List Msg) (m : Msg)
    (hm : m ∈ ms) (hu : m.role = "user")
    (hok : m.hasButton = true ∨ m.outcome ≠ InjectOutcome.err) :
    m.id ∈ (claudeInject proc ms).1 := by
  induction ms generalizing proc with
  | nil => simp at hm
  | cons a ms ih =>
    rcases List.mem_cons.mp hm with rfl | hm'
    · by_cases hb : m.hasButton = true
      · have hp : m.id ∈ (if m.id ∈ proc then proc else m.id :: proc) := by
          by_cases hid : m.id ∈ proc <;> simp [hid]
        rw [claudeInject, if_pos hu, if_pos hb]
        exact claudeInject_mono ms _ m.id hp
      · have hb' : m.hasButton = false := by simpa using hb
        rcases hok with h | h
        · exact absurd h hb
        · cases ho : m.outcome with
          | err => exact absurd ho h
          | ok =>
            rw [claudeInject, if_pos hu, hb']
            simp only [ho]
            exact claudeInject_mono ms _ m.id (by simp)
          | silentFail =>
            rw [claudeInject, if_pos hu, hb']
            simp only [ho]
            exact claudeInject_mono ms _ m.id (by simp)
    · by_cases hu' : a.role = "user"
      · by_cases hb : a.hasButton = true
        · rw [claudeInject, if_pos hu', if_pos hb]
          exact ih _ hm'
        · have hb' : a.hasButton = false := by simpa using hb
          cases ho : a.outcome with
          | err =>
            rw [claudeInject, if_pos hu', hb']
            simp only [ho]
            exact ih proc hm'
          | ok =>
            rw [claudeInject, if_pos hu', hb']
            simp only [ho]
            exact ih _ hm'
          | silentFail =>
            rw [claudeInject, if_pos hu', hb']
            simp only [ho]
            exact ih _ hm'
      · rw [claudeInject, if_neg hu']
        exact ih proc hm'

/-- Witness for C8 at a concrete input: a user turn with a succeeding
insertion ends up in the processed set. -/
theorem processed_after_scan_witness :
    msgOk ∈ [msgOk] ∧ "m1" ∈ (claudeInject [] [msgOk]).1 :=
  ⟨List.mem_singleton_self msgOk,
   processed_after_scan [] [msgOk] msgOk (List.mem_singleton_self msgOk) rfl
     (Or.inr (by decide))⟩

/-! ## BootstrapScheduler (retry loop of initializeExtension) -/

/-- The fixed backoff delay table of the retry loop. -/
def retryIntervals : List Nat := [500, 1000, 1000, 2000, 2000, 3000, 3000, 5000, 5000, 5000]

/-- Retry budget of the bootstrap loop. -/
def maxRetries : Nat := 10

/-- One unfolding of the retry closure: stop once retryCount reaches
maxRetries, otherwise schedule an attempt after the retryCount-th delay
and, when that attempt still finds zero messages, recurse. found gives
the message count seen by the attempt scheduled at each retryCount. The
fuel argument only bounds the recursion; with fuel = maxRetries it is
never the binding constraint. -/
def runRetryAux (found : Nat → Nat) : Nat → Nat → List Nat
  | 0, _ => []
  | fuel + 1, retryCount =>
    if maxRetries ≤ retryCount then []
    else
      retryIntervals.getD retryCount 0 ::
        (if 0 < found retryCount then [] else runRetryAux found fuel (retryCount + 1))

/-- The list of delays of the retry attempts actually scheduled by the
bootstrap loop, starting from retryCount = 0. -/
def runRetry (found : Nat → Nat) : List Nat :=
  runRetryAux found maxRetries 0

/-! ## Claim C5: backoff termination -/

/-- C5: when every retry attempt finds zero turns, the bootstrap loop
schedules exactly 10 retry attempts whose delays are precisely the fixed
backoff table, and schedules nothing after the 10th failed attempt (the
trace is exactly the 10-element table). -/
theorem backoff_termination (found : Nat → Nat) (h : ∀ k, found k = 0) :
    runRetry found = retryIntervals ∧
    (runRetry found).length = 10 ∧
    retryIntervals = [500, 1000, 1000, 2000, 2000, 3000, 3000, 5000, 5000, 5000] := by
  have e : runRetry found = retryIntervals := by
    simp [runRetry, runRetryAux, maxRetries, retryIntervals, h]
  exact ⟨e, by rw [e]; rfl, rfl⟩

/-- Witness for C5: the concrete always-empty page. -/
theorem backoff_termination_witness :
    runRetry (fun _ => 0) = [500, 1000, 1000, 2000, 2000, 3000, 3000, 5000, 5000, 5000] :=
  ((backoff_termination (fun _ => 0) (fun _ => rfl)).1).trans
    (backoff_termination (fun _ => 0) (fun _ => rfl)).2.2

/-! ## Shared content-script state (base-content.ts) and sanitizer -/

/-- InputSanitizer.sanitizeText character replacements: the HTML-escaping
of the six characters of the regex chain, by character code 60, 62, 34,
39, 47 and 96. -/
def escapeChar (c : Char) : List Char :=
  if c.toNat = 60 then "&lt;".toList
  else if c.toNat = 62 then "&gt;".toList
  else if c.toNat = 34 then "&quot;".toList
  else if c.toNat = 39 then "&#x27;".toList
  else if c.toNat = 47 then "&#x2F;".toList
  else if c.toNat = 96 then "&#x60;".toList
  else [c]

/-- JavaScript String.trim on a character list. -/
def trimChars (l : List Char) : List Char :=
  ((l.dropWhile Char.isWhitespace).reverse.dropWhile Char.isWhitespace).reverse

/-- InputSanitizer.sanitizeText: escape, trim, truncate to maxLength. -/
def sanitizeText (input : String) (maxLength : Nat) : String :=
  if input = "" then ""
  else String.mk ((trimChars (input.toList.flatMap escapeChar)).take maxLength)

/-- The module-level shared state of base-content.ts: the
bookmarkedMessageIds set and the bookmarksMap keyed by message id. -/
structure ContentState where
  bookmarkedMessageIds : List String
  bookmarksMap : List (String × Bookmark)
deriving DecidableEq

/-- JavaScript Map.set: overwrite the entry for the key. -/
def mapSet (m : List (String × Bookmark)) (k : String) (b : Bookmark) :
    List (String × Bookmark) :=
  (m.filter (fun p => !(p.1 == k))) ++ [(k, b)]

/-- JavaScript Map.get with a null default. -/
def mapGet (m : List (String × Bookmark)) (k : String) : Option Bookmark :=
  (m.find? (fun p => p.1 == k)).map Prod.snd

/-- getBookmark of base-content.ts: synchronous lookup in bookmarksMap. -/
def getBookmark (st : ContentState) (messageId : String) : Option Bookmark :=
  mapGet st.bookmarksMap messageId

/-- loadBookmarksForConversation of base-content.ts: clear and rebuild
both lookup structures from the Store. -/
def loadBookmarksForConversation (now : Int) (conversationId : String)
    (raw : List Bookmark) : ContentState :=
  let bookmarks := getByConversation now conversationId raw
  { bookmarkedMessageIds := bookmarks.map Bookmark.messageId,
    bookmarksMap := bookmarks.foldl (fun m b => mapSet m b.messageId b) [] }

/-- handleBookmarkClick of base-content.ts: a cancelled prompt changes
nothing; otherwise the new record built from the sanitized note and
message text is saved, and on a save that did not throw the message id is
added to bookmarkedMessageIds. No entry is made in bookmarksMap. The
button-update DOM walk has no effect on this state and is omitted. -/
def handleBookmarkClick (now : Int) (rawNote : Option String) (m : Msg)
    (platformName conversationId pageUrl bookmarkId : String)
    (st : ContentState) (raw : List Bookmark) : ContentState × List Bookmark :=
  match rawNote with
  | none => (st, raw)
  | some enteredNote =>
    let b : Bookmark :=
      { id := bookmarkId
        platform := platformName
        conversationId := conversationId
        messageId := m.id
        messageText := sanitizeText m.text 500
        note := sanitizeText enteredNote 500
        tags := []
        timestamp := now
        url := pageUrl }
    let r := save now b raw
    match r.thrown with
    | some _ => (st, r.store)
    | none =>
      ({ st with bookmarkedMessageIds := m.id :: st.bookmarkedMessageIds }, r.store)

/-- The record that the concrete handleBookmarkClick call below saves. -/
def bkSaved : Bookmark where
  id := "bm1"
  platform := "claude"
  conversationId := "c1"
  messageId := "m1"
  messageText := "hi"
  note := "note"
  tags := []
  timestamp := 1000
  url := "u"

/-! ## Claim C9: optimistic index update on save -/

/-- C9: a successful save through handleBookmarkClick stores the record
and optimistically adds the message id to bookmarkedMessageIds, but the
bookmarksMap index that getBookmark reads is not updated: getBookmark on
the saved message id still returns none until the next
loadBookmarksForConversation, after which it returns the record. -/
theorem optimistic_update_missing :
    (handleBookmarkClick 1000 (some "note") msgOk "claude" "c1" "u" "bm1"
      { bookmarkedMessageIds := [], bookmarksMap := [] } []).2 = [bkSaved] ∧
    (handleBookmarkClick 1000 (some "note") msgOk "claude" "c1" "u" "bm1"
      { bookmarkedMessageIds := [], bookmarksMap := [] } []).1.bookmarkedMessageIds = ["m1"] ∧
    getBookmark (handleBookmarkClick 1000 (some "note") msgOk "claude" "c1" "u" "bm1"
      { bookmarkedMessageIds := [], bookmarksMap := [] } []).1 "m1" = none ∧
    getBookmark (loadBookmarksForConversation 1000 "c1" [bkSaved]) "m1" = some bkSaved := by
  refine ⟨?_, ?_, ?_, ?_⟩
  · decide
  · decide
  · decide
  · decide

end OpenAIBookmark
